import Mathlib

/-!
Shallow embedding of `src/hnswscan.c` (pgvector HNSW index scan) and
verification of its specification.

The file models the four scan functions of `hnswscan.c`:
`GetScanItems`, `hnswbeginscan`, `hnswrescan`, `hnswgettuple`, `hnswendscan`.

External collaborators that live outside this file's source
(`SearchLayer`, `GetEntryPoint`, `HnswNormValue`, the distance procedure)
are modelled as abstract parameters bundled in `ScanEnv`: the scan code
never inspects their internals, it only calls them.

Machine-level details are modelled as follows:
* `Datum`, `Tid` (ItemPointer), `BlockNumber` are `Nat`.
* `InvalidBuffer` is `none`; a pinned buffer is `some blkno`.
* `ReleaseBuffer` / `ReadBuffer` calls are recorded as an explicit event
  trace (`BufEvent`), so pin discipline is visible in the model.
* `elog(ERROR, ...)` is the `GetTupleResult.error` constructor.
* PostgreSQL `List` is Lean `List`; `llast` is `List.getLast?`,
  `list_delete_last` is `List.dropLast` (the C code always checks
  `list_length > 0` before `llast`, which is exactly the `some` case of
  `getLast?`).
-/

abbrev Datum := Nat
abbrev Tid := Nat
abbrev BlockNumber := Nat

/-- In-memory HNSW element (graph node) as the scan sees it: its level in
the hierarchy, its heap tids (record references, consumed from the back),
and the index block number backing it.  Identified in the store by a
`Nat` id. -/
structure HnswElement where
  level : Nat
  heaptids : List Tid
  blkno : BlockNumber
deriving Repr, DecidableEq

/-- `HnswCandidate` from the C code: a reference to an element.  The
distance field is never read by the scan code in `hnswscan.c` (only by
the abstract `SearchLayer`), so it is not modelled. -/
structure HnswCandidate where
  element : Nat
deriving Repr, DecidableEq

/-- One order-by scan key (`ScanKeyData`): the `SK_ISNULL` flag and the
`sk_argument` datum (the query vector). -/
structure OrderByKey where
  sk_isnull : Bool
  sk_argument : Datum
deriving Repr, DecidableEq

/-- `IndexScanDesc` fields the scan code reads: `scan->orderByData`
(`none` models a NULL pointer, i.e. no order-by keys). -/
structure ScanDesc where
  orderByData : Option OrderByKey

/-- The external collaborators of `hnswscan.c`, as abstract functions:
`SearchLayer q ep ef lc` (returns the new candidate list), the entry
point (`GetEntryPoint`, `none` on an empty index), the optional
normalization procedure (`HnswOptionalProcInfo(index, HNSW_NORM_PROC)`;
`none` result of the function models `HnswNormValue` returning false),
and the `hnsw.ef_search` GUC. -/
structure ScanEnv where
  searchLayer : Datum → List HnswCandidate → Nat → Nat → List HnswCandidate
  entryPoint : Option Nat
  normprocinfo : Option (Datum → Option Datum)
  hnsw_ef_search : Nat

/-- Mutable per-scan state: the fields of `HnswScanOpaqueData`
(`buf`, `first`, `w`), the in-memory element store that `SearchLayer`
results reference (mutated when heap tids are popped), and the
`IndexScanDesc` output fields `xs_heaptid` / `xs_recheckorderby`. -/
structure ScanState where
  buf : Option BlockNumber
  first : Bool
  w : List HnswCandidate
  elements : Nat → HnswElement
  xs_heaptid : Option Tid
  xs_recheckorderby : Bool

/-- Buffer manager calls made by the scan, in order. -/
inductive BufEvent where
  | release (b : BlockNumber)
  | acquire (b : BlockNumber)
deriving Repr, DecidableEq

/-- Result of one `hnswgettuple` call: `error` models `elog(ERROR, ...)`,
`found t` models `return true` with `xs_heaptid = t`, `done` models
`return false`. -/
inductive GetTupleResult where
  | error (msg : String)
  | found (tid : Tid)
  | done
deriving Repr, DecidableEq

/-- `EntryCandidate(entryPoint, q, ...)`: wraps the entry element as a
candidate (the computed distance is not modelled, see `HnswCandidate`). -/
def EntryCandidate (element : Nat) : HnswCandidate :=
  ⟨element⟩

/-- The descent loop of `GetScanItems`:
`for (lc = entryPoint->level; lc >= 1; lc--) { w = SearchLayer(q, ep, 1, lc, ...); ep = w; }`
modelled by recursion on `lc`. -/
def descendLayers (env : ScanEnv) (q : Datum) (ep : List HnswCandidate) : Nat → List HnswCandidate
  | 0 => ep
  | lc + 1 => descendLayers env q (env.searchLayer q ep 1 (lc + 1)) lc

/-- `GetScanItems(scan, q)` from `hnswscan.c`: resolve the entry point
(return unchanged if the graph is empty), seed the frontier with the
entry candidate, descend layers `level..1` with `ef = 1`, then run
`SearchLayer` at layer 0 with `ef = hnsw_ef_search` and store the result
in `so->w`. -/
def GetScanItems (env : ScanEnv) (so : ScanState) (q : Datum) : ScanState :=
  match env.entryPoint with
  | none => so
  | some entryPoint =>
    let ep : List HnswCandidate := [EntryCandidate entryPoint]
    let ep := descendLayers env q ep (so.elements entryPoint).level
    { so with w := env.searchLayer q ep env.hnsw_ef_search 0 }

/-- Modelled from the spec (§4.3 Query Driver, step 3): "For each layer
from the entry point's level down to 1 (inclusive), call Layer Search
with `ef=1`; replace the frontier with the single-element result."
Written from the spec's words, to be compared with `descendLayers`. -/
def narrowFrontier (env : ScanEnv) (q : Datum) (frontier : List HnswCandidate) : Nat → List HnswCandidate
  | 0 => frontier
  | layer + 1 => narrowFrontier env q (env.searchLayer q frontier 1 (layer + 1)) layer

/-- Modelled from the spec (§4.3 Query Driver): resolve the entry point
(empty result if none), build the one-element frontier, narrow it down
through layers `level..1`, then call Layer Search at layer 0 with
`ef = efSearch`; the result is the final answer set. -/
def runQuerySpec (env : ScanEnv) (elements : Nat → HnswElement) (q : Datum) : List HnswCandidate :=
  match env.entryPoint with
  | none => []
  | some ep =>
    let frontier := narrowFrontier env q [EntryCandidate ep] ((elements ep).level)
    env.searchLayer q frontier env.hnsw_ef_search 0

/-- `if (BufferIsValid(so->buf)) ReleaseBuffer(so->buf)`: the buffer
calls this statement makes. -/
def releaseIfValid : Option BlockNumber → List BufEvent
  | some b => [BufEvent.release b]
  | none => []

/-- The `while (list_length(so->w) > 0)` loop of `hnswgettuple`:
examine `llast(so->w)`; if its element has no heap tids left, delete the
last candidate and retry; otherwise pop the last heap tid, store it in
`xs_heaptid`, release the previously pinned buffer (if valid), pin the
element's index block, clear `xs_recheckorderby` and return true.
Returns the result, the new state, and the buffer calls made. -/
def gettupleLoop (st : ScanState) : GetTupleResult × ScanState × List BufEvent :=
  match hw : st.w.getLast? with
  | none => (.done, st, [])
  | some hc =>
    match (st.elements hc.element).heaptids.getLast? with
    | none =>
      gettupleLoop { st with w := st.w.dropLast }
    | some tid =>
      (.found tid,
       { st with
         elements := Function.update st.elements hc.element
           { st.elements hc.element with heaptids := (st.elements hc.element).heaptids.dropLast },
         xs_heaptid := some tid,
         buf := some (st.elements hc.element).blkno,
         xs_recheckorderby := false },
       releaseIfValid st.buf ++ [BufEvent.acquire (st.elements hc.element).blkno])
termination_by st.w.length
decreasing_by
  simp only [List.length_dropLast]
  cases hl : st.w with
  | nil => rw [hl] at hw; simp at hw
  | cons a l => simp

/-- The normalization step of `hnswgettuple` (lines 118-123): when
`so->normprocinfo` is present, `HnswNormValue` may fail (`none`) or
produce the normalized value; when absent, the value passes through
unchanged. -/
def normalizeValue (env : ScanEnv) (value : Datum) : Option Datum :=
  match env.normprocinfo with
  | none => some value
  | some f => f value

/-- `hnswgettuple(scan, dir)` from `hnswscan.c`.  On the first call:
error out if there are no order-by keys, return `done` if the order-by
argument is NULL, return `done` if normalization fails, otherwise run
`GetScanItems` on the (possibly normalized) value and clear `first`.
Then drain the result list via `gettupleLoop`. -/
def hnswgettuple (env : ScanEnv) (scan : ScanDesc) (so : ScanState) :
    GetTupleResult × ScanState × List BufEvent :=
  if so.first then
    match scan.orderByData with
    | none => (.error "cannot scan hnsw index without order", so, [])
    | some ob =>
      if ob.sk_isnull then
        (.done, so, [])
      else
        match normalizeValue env ob.sk_argument with
        | none => (.done, so, [])
        | some value =>
          let so := GetScanItems env so value
          gettupleLoop { so with first := false }
  else
    gettupleLoop so

/-- `hnswrescan(scan, keys, nkeys, orderbys, norderbys)`: set `first`,
free `so->w` and reset it to NIL, and overwrite `scan->orderByData` when
new order-by keys are supplied (`orderbys != NULL`).  The buffer pin is
not touched; no buffer calls are made (empty trace). -/
def hnswrescan (scan : ScanDesc) (orderbys : Option OrderByKey) (so : ScanState) :
    ScanDesc × ScanState × List BufEvent :=
  let scanNew : ScanDesc :=
    match orderbys with
    | some ob => { orderByData := some ob }
    | none => scan
  (scanNew, { so with first := true, w := [] }, [])

/-- `hnswendscan(scan)`: release the pin if one is held, free `so->w`,
free `so` and set `scan->opaque = NULL`.  The argument is
`scan->opaque`; calling with `none` (an already-ended scan) dereferences
a NULL pointer in the C code, modelled as the `none` result (a fatal
fault, distinct from any normal return). -/
def hnswendscan (so_ptr : Option ScanState) : Option (Option ScanState × List BufEvent) :=
  match so_ptr with
  | none => none
  | some so => some (none, releaseIfValid so.buf)

/-- Pinned-buffer accounting over a trace of buffer calls: `acquire`
adds a pin, `release` removes one. -/
def pinFold (ps : List BlockNumber) : List BufEvent → List BlockNumber
  | [] => ps
  | BufEvent.release b :: es => pinFold (ps.erase b) es
  | BufEvent.acquire b :: es => pinFold (b :: ps) es

/-- The state transformation of one `hnswgettuple` result-list step
(used to iterate calls on a started scan). -/
def stepState (st : ScanState) : ScanState :=
  (gettupleLoop st).2.1

/-- `n`-fold `List.dropLast`: the heap-tid list after `n` pops from the
back. -/
def dropLastN (n : Nat) (l : List Tid) : List Tid :=
  List.dropLast^[n] l

/-! ### Concrete fixtures for witnesses and counterexamples -/

/-- Element store: element 0 has two heap tids on block 3, element 1 has
an exhausted (empty) heap-tid list on block 4. -/
def elemsW : Nat → HnswElement := fun i =>
  if i = 0 then { level := 0, heaptids := [5, 7], blkno := 3 }
  else { level := 0, heaptids := [], blkno := 4 }

/-- Environment with a one-node graph: entry point 0 at level 0, layer
search always returns candidate 0, no normalization procedure. -/
def envW : ScanEnv :=
  { searchLayer := fun _ _ _ _ => [⟨0⟩], entryPoint := some 0,
    normprocinfo := none, hnsw_ef_search := 4 }

/-- Environment with an empty graph (no entry point). -/
def envEmpty : ScanEnv :=
  { searchLayer := fun _ _ _ _ => [], entryPoint := none,
    normprocinfo := none, hnsw_ef_search := 4 }

/-- Environment whose normalization procedure always fails (e.g. a zero
query vector). -/
def envNormFail : ScanEnv :=
  { searchLayer := fun _ _ _ _ => [⟨0⟩], entryPoint := some 0,
    normprocinfo := some (fun _ => none), hnsw_ef_search := 4 }

/-- Scan descriptor with a non-null order-by argument. -/
def scanW : ScanDesc :=
  { orderByData := some { sk_isnull := false, sk_argument := 9 } }

/-- Scan descriptor with no order-by keys (NULL `orderByData`). -/
def scanNoOrder : ScanDesc :=
  { orderByData := none }

/-- Scan descriptor whose order-by argument is SQL NULL. -/
def scanNullOrder : ScanDesc :=
  { orderByData := some { sk_isnull := true, sk_argument := 0 } }

/-- Freshly begun scan state (as left by `hnswbeginscan`). -/
def soFresh : ScanState :=
  { buf := none, first := true, w := [], elements := elemsW,
    xs_heaptid := none, xs_recheckorderby := false }

/-- Started scan state: result list `[1, 0]` (so candidate 0 is
consumed first), no pin held. -/
def soStarted : ScanState :=
  { buf := none, first := false, w := [⟨1⟩, ⟨0⟩], elements := elemsW,
    xs_heaptid := none, xs_recheckorderby := true }

/-- Started scan state holding a pin on block 5, with candidate 0 next. -/
def soPinned : ScanState :=
  { buf := some 5, first := false, w := [⟨0⟩], elements := elemsW,
    xs_heaptid := some 5, xs_recheckorderby := false }

/-- Started scan state whose last result-list element (candidate 1) has
an exhausted heap-tid list. -/
def soSkip : ScanState :=
  { buf := none, first := false, w := [⟨0⟩, ⟨1⟩], elements := elemsW,
    xs_heaptid := none, xs_recheckorderby := false }

/-! ### Helper lemmas -/

/-- C1: the query driver descends one layer at a time with `ef = 1` and
finishes at layer 0 with `ef = efSearch`. -/
theorem getScanItems_follows_spec (env : ScanEnv) (so : ScanState) (q : Datum)
    (e : Nat) (h : env.entryPoint = some e) :
    GetScanItems env so q = { so with w := runQuerySpec env so.elements q } ∧
    runQuerySpec env so.elements q =
      env.searchLayer q
        (narrowFrontier env q [EntryCandidate e] ((so.elements e).level))
        env.hnsw_ef_search 0 ∧
    (∀ frontier layer,
      narrowFrontier env q frontier (layer + 1) =
        narrowFrontier env q (env.searchLayer q frontier 1 (layer + 1)) layer) := by
  have hdesc : ∀ n ep, descendLayers env q ep n = narrowFrontier env q ep n := by
    intro n
    induction n with
    | zero => intro ep; rfl
    | succ k ih => intro ep; simp [descendLayers, narrowFrontier, ih]
  refine ⟨?_, ?_, ?_⟩
  · simp [GetScanItems, runQuerySpec, h, hdesc]
  · simp [runQuerySpec, h]
  · intro frontier layer
    rfl

/-- Unfolding: an empty result list ends the scan (`return false`). -/
theorem gettupleLoop_done (st : ScanState) (hw : st.w.getLast? = none) :
    gettupleLoop st = (.done, st, []) := by
  rw [gettupleLoop]
  split
  · rfl
  · rename_i hc heq
    rw [hw] at heq
    cases heq

/-- Unfolding: a last candidate with no heap tids is deleted and the
loop retries. -/
theorem gettupleLoop_skip (st : ScanState) (hc : HnswCandidate)
    (hw : st.w.getLast? = some hc)
    (ht : (st.elements hc.element).heaptids.getLast? = none) :
    gettupleLoop st = gettupleLoop { st with w := st.w.dropLast } := by
  rw [gettupleLoop]
  split
  · rename_i heq
    rw [hw] at heq
    cases heq
  · rename_i hc2 heq
    rw [hw] at heq
    cases heq
    split
    · rfl
    · rename_i t heq2
      rw [ht] at heq2
      cases heq2

/-- Unfolding: a last candidate with a heap tid pops it, repins, and
returns it. -/
theorem gettupleLoop_pop (st : ScanState) (hc : HnswCandidate) (t : Tid)
    (hw : st.w.getLast? = some hc)
    (ht : (st.elements hc.element).heaptids.getLast? = some t) :
    gettupleLoop st =
      (.found t,
       { st with
         elements := Function.update st.elements hc.element
           { st.elements hc.element with heaptids := (st.elements hc.element).heaptids.dropLast },
         xs_heaptid := some t,
         buf := some (st.elements hc.element).blkno,
         xs_recheckorderby := false },
       releaseIfValid st.buf ++ [BufEvent.acquire (st.elements hc.element).blkno]) := by
  rw [gettupleLoop]
  split
  · rename_i heq
    rw [hw] at heq
    cases heq
  · rename_i hc2 heq
    rw [hw] at heq
    cases heq
    split
    · rename_i heq2
      rw [ht] at heq2
      cases heq2
    · rename_i t2 heq2
      rw [ht] at heq2
      cases heq2
      rfl

/-- `GetScanItems` only writes `so->w`: the buffer pin and all other
scan fields are untouched. -/
theorem GetScanItems_fields (env : ScanEnv) (so : ScanState) (q : Datum) :
    (GetScanItems env so q).buf = so.buf ∧
    (GetScanItems env so q).first = so.first ∧
    (GetScanItems env so q).elements = so.elements := by
  unfold GetScanItems
  cases env.entryPoint <;> simp

/-- A `found` result always comes out of the pop branch, which clears
`xs_recheckorderby`. -/
theorem gettupleLoop_found_recheck : ∀ (n : Nat) (st : ScanState), st.w.length ≤ n →
    ∀ t, (gettupleLoop st).1 = GetTupleResult.found t →
    (gettupleLoop st).2.1.xs_recheckorderby = false := by
  intro n
  induction n with
  | zero =>
    intro st hlen t h
    have hw : st.w = [] := List.length_eq_zero.mp (Nat.le_zero.mp hlen)
    rw [gettupleLoop_done st (by simp [hw])] at h
    simp at h
  | succ k ih =>
    intro st hlen t h
    cases hw : st.w.getLast? with
    | none =>
      rw [gettupleLoop_done st hw] at h
      simp at h
    | some hc =>
      cases ht : (st.elements hc.element).heaptids.getLast? with
      | none =>
        rw [gettupleLoop_skip st hc hw ht] at h ⊢
        refine ih _ ?_ t h
        have hne : st.w ≠ [] := by
          intro hnil
          rw [hnil] at hw
          simp at hw
        have hpos : 0 < st.w.length := List.length_pos.mpr hne
        simp only [List.length_dropLast]
        omega
      | some t2 =>
        rw [gettupleLoop_pop st hc t2 hw ht]

/-- C10: every `next()` call that returns a record also reports that the
ordering does not need rechecking (`xs_recheckorderby = false`). -/
theorem gettuple_clears_recheckorderby (env : ScanEnv) (scan : ScanDesc) (so : ScanState)
    (t : Tid) (h : (hnswgettuple env scan so).1 = GetTupleResult.found t) :
    (hnswgettuple env scan so).2.1.xs_recheckorderby = false := by
  by_cases hf : so.first
  · cases hob : scan.orderByData with
    | none =>
      simp [hnswgettuple, hf, hob] at h
    | some ob =>
      by_cases hnull : ob.sk_isnull
      · simp [hnswgettuple, hf, hob, hnull] at h
      · cases hval : normalizeValue env ob.sk_argument with
        | none => simp [hnswgettuple, hf, hob, hnull, hval] at h
        | some v =>
          simp only [hnswgettuple, hf, hob, hnull, hval, if_true, Bool.false_eq_true,
            if_false] at h ⊢
          exact gettupleLoop_found_recheck _ _ le_rfl t h
  · simp only [Bool.not_eq_true] at hf
    simp only [hnswgettuple, hf, Bool.false_eq_true, if_false] at h ⊢
    exact gettupleLoop_found_recheck _ _ le_rfl t h

/-- Witness for C10: on the one-node graph the first call returns heap
tid 7 and reports no ordering recheck. -/
theorem gettuple_clears_recheckorderby_witness :
    (hnswgettuple envW scanW soFresh).2.1.xs_recheckorderby = false :=
  gettuple_clears_recheckorderby envW scanW soFresh 7 (by
    simp [hnswgettuple, gettupleLoop, GetScanItems, descendLayers, normalizeValue,
      envW, scanW, soFresh, elemsW, EntryCandidate])

/-- C5: on the first call of a scan, missing order-by keys are a fatal
error surfaced to the caller, while a NULL order-by value ends the scan
with end-of-results and no search (state untouched). -/
theorem gettuple_first_call_orderby (env : ScanEnv) (scan : ScanDesc) (so : ScanState)
    (hfirst : so.first = true) :
    (scan.orderByData = none →
      hnswgettuple env scan so =
        (.error "cannot scan hnsw index without order", so, [])) ∧
    (∀ ob, scan.orderByData = some ob → ob.sk_isnull = true →
      hnswgettuple env scan so = (.done, so, [])) := by
  constructor
  · intro h
    simp [hnswgettuple, hfirst, h]
  · intro ob h hnull
    simp [hnswgettuple, hfirst, h, hnull]

/-- Witness for C5: the error on a scan with no order-by keys and the
empty result on a NULL order-by argument, on concrete fresh scans. -/
theorem gettuple_first_call_orderby_witness :
    hnswgettuple envW scanNoOrder soFresh =
      (.error "cannot scan hnsw index without order", soFresh, []) ∧
    hnswgettuple envW scanNullOrder soFresh = (.done, soFresh, []) :=
  ⟨(gettuple_first_call_orderby envW scanNoOrder soFresh rfl).1 rfl,
   (gettuple_first_call_orderby envW scanNullOrder soFresh rfl).2
     { sk_isnull := true, sk_argument := 0 } rfl rfl⟩

/-- C9: a configured normalization procedure that fails on the query
vector makes the query yield zero results without running the query
driver (state untouched) and without error; with no normalization
procedure the query vector is passed to the query driver unchanged. -/
theorem gettuple_normalization (env : ScanEnv) (scan : ScanDesc) (so : ScanState)
    (hfirst : so.first = true) (ob : OrderByKey)
    (hob : scan.orderByData = some ob) (hnull : ob.sk_isnull = false) :
    (∀ f, env.normprocinfo = some f → f ob.sk_argument = none →
      hnswgettuple env scan so = (.done, so, [])) ∧
    (env.normprocinfo = none →
      hnswgettuple env scan so =
        gettupleLoop { GetScanItems env so ob.sk_argument with first := false }) := by
  constructor
  · intro f hf hfail
    simp [hnswgettuple, hfirst, hob, hnull, normalizeValue, hf, hfail]
  · intro hnp
    simp [hnswgettuple, hfirst, hob, hnull, normalizeValue, hnp]

/-- Witness for C9: the always-failing normalizer yields end-of-results
on the concrete scan; without a normalizer the concrete query vector 9
reaches `GetScanItems` unchanged. -/
theorem gettuple_normalization_witness :
    hnswgettuple envNormFail scanW soFresh = (.done, soFresh, []) ∧
    hnswgettuple envW scanW soFresh =
      gettupleLoop { GetScanItems envW soFresh 9 with first := false } :=
  ⟨(gettuple_normalization envNormFail scanW soFresh rfl
      { sk_isnull := false, sk_argument := 9 } rfl rfl).1 (fun _ => none) rfl rfl,
   (gettuple_normalization envW scanW soFresh rfl
      { sk_isnull := false, sk_argument := 9 } rfl rfl).2 rfl⟩

/-- C4: with an empty result list — started scan whose candidates are
consumed, or first call on an empty graph (no entry point) — `next()`
returns end-of-results, not an error, and every further call returns
end-of-results again. -/
theorem gettuple_empty_results (env : ScanEnv) (scan : ScanDesc) (so : ScanState) :
    (so.first = false → so.w = [] →
      hnswgettuple env scan so = (.done, so, [])) ∧
    (so.first = true → so.w = [] → env.entryPoint = none →
      ∀ ob, scan.orderByData = some ob → ob.sk_isnull = false →
      ∀ v, normalizeValue env ob.sk_argument = some v →
        hnswgettuple env scan so = (.done, { so with first := false }, []) ∧
        hnswgettuple env scan { so with first := false } =
          (.done, { so with first := false }, [])) := by
  constructor
  · intro hf hw
    have : hnswgettuple env scan so = gettupleLoop so := by
      simp [hnswgettuple, hf]
    rw [this]
    exact gettupleLoop_done so (by simp [hw])
  · intro hf hw hep ob hob hnull v hv
    have hgsi : GetScanItems env so v = so := by simp [GetScanItems, hep]
    constructor
    · have : hnswgettuple env scan so = gettupleLoop { so with first := false } := by
        simp [hnswgettuple, hf, hob, hnull, hv, hgsi]
      rw [this]
      exact gettupleLoop_done { so with first := false } (by simp [hw])
    · have : hnswgettuple env scan { so with first := false } =
          gettupleLoop { so with first := false } := by
        simp [hnswgettuple]
      rw [this]
      exact gettupleLoop_done { so with first := false } (by simp [hw])

/-- Witness for C4: on the concrete empty graph the first call and the
call after it both return end-of-results. -/
theorem gettuple_empty_results_witness :
    hnswgettuple envEmpty scanW soFresh = (.done, { soFresh with first := false }, []) ∧
    hnswgettuple envEmpty scanW { soFresh with first := false } =
      (.done, { soFresh with first := false }, []) :=
  (gettuple_empty_results envEmpty scanW soFresh).2 rfl rfl rfl
    { sk_isnull := false, sk_argument := 9 } rfl rfl 9 rfl

/-- C6 counterexample: rescanning a concrete cursor that holds a pin on
block 5 leaves the pin held — `buf` is still `some 5`, not released, and
no buffer call is made — refuting "after rescan() returns, no pin is
held". -/
theorem rescan_releases_pin_cex :
    (hnswrescan scanW none soPinned).2.1.buf = some 5 ∧
    (hnswrescan scanW none soPinned).2.1.buf ≠ none ∧
    (hnswrescan scanW none soPinned).2.2 = [] := by
  refine ⟨rfl, ?_, rfl⟩
  simp [hnswrescan, soPinned]

/-- C6 (amended): `hnswrescan` discards the search state (`first` reset,
result list cleared) but does not release a held page pin: `buf` is
unchanged and no buffer calls are made; the pin persists until the next
returned tuple or `hnswendscan`. -/
theorem rescan_leaves_pin (scan : ScanDesc) (orderbys : Option OrderByKey) (so : ScanState) :
    (hnswrescan scan orderbys so).2.1.buf = so.buf ∧
    (hnswrescan scan orderbys so).2.2 = [] ∧
    (hnswrescan scan orderbys so).2.1.first = true ∧
    (hnswrescan scan orderbys so).2.1.w = [] := by
  simp [hnswrescan]

/-- C7: after `hnswrescan` the result list is empty and the cursor is in
the not-started state; the rescanned cursor's state and subsequent
`next()` behaviour are independent of the prior result list, and the
next `next()` call re-runs the layered search (`GetScanItems`) from
scratch on the new arguments. -/
theorem rescan_no_leak (env : ScanEnv) (scan : ScanDesc) (orderbys : Option OrderByKey)
    (so : ScanState) (wPrev : List HnswCandidate) :
    hnswrescan scan orderbys { so with w := wPrev } = hnswrescan scan orderbys so ∧
    (hnswrescan scan orderbys so).2.1.w = [] ∧
    (hnswrescan scan orderbys so).2.1.first = true ∧
    (∀ ob v, (hnswrescan scan orderbys so).1.orderByData = some ob →
      ob.sk_isnull = false → normalizeValue env ob.sk_argument = some v →
      hnswgettuple env (hnswrescan scan orderbys so).1 (hnswrescan scan orderbys so).2.1 =
        gettupleLoop
          { GetScanItems env (hnswrescan scan orderbys so).2.1 v with first := false }) := by
  refine ⟨by simp [hnswrescan], by simp [hnswrescan], by simp [hnswrescan], ?_⟩
  intro ob v hob hnull hv
  simp [hnswrescan] at hob ⊢
  simp [hnswgettuple, hob, hnull, hv]

/-- Witness for C7: rescanning the concrete pinned cursor with leftover
results, then calling `next()`, re-runs the search on query vector 9. -/
theorem rescan_no_leak_witness :
    hnswgettuple envW (hnswrescan scanW none soPinned).1 (hnswrescan scanW none soPinned).2.1 =
      gettupleLoop
        { GetScanItems envW (hnswrescan scanW none soPinned).2.1 9 with first := false } :=
  (rescan_no_leak envW scanW none soPinned []).2.2.2
    { sk_isnull := false, sk_argument := 9 } 9 rfl rfl rfl

/-- C8 counterexample: `hnswendscan` on the open concrete cursor
succeeds, releases the pin and nulls `scan->opaque`; a second
`hnswendscan` on the now-closed cursor dereferences the NULL opaque
pointer (the fault value `none`), so a second close is not a no-op. -/
theorem endscan_double_close_cex :
    hnswendscan (some soPinned) = some (none, [BufEvent.release 5]) ∧
    hnswendscan none = none := by
  constructor
  · simp [hnswendscan, soPinned, releaseIfValid]
  · rfl

/-- C8 (amended): `hnswendscan` on a live cursor always succeeds,
releases any held pin (the pin accounting drains to empty) and nulls the
scan state; it is not idempotent — on an already-closed cursor (NULL
opaque pointer) it faults instead of being a no-op, so close must be
called exactly once. -/
theorem endscan_close_once (so : ScanState) :
    hnswendscan (some so) = some (none, releaseIfValid so.buf) ∧
    pinFold so.buf.toList (releaseIfValid so.buf) = [] ∧
    hnswendscan none = none := by
  refine ⟨rfl, ?_, rfl⟩
  cases so.buf <;> simp [pinFold, releaseIfValid]

/-- The loop's buffer behaviour: either it finds no tuple, makes no
buffer calls and leaves the pin unchanged, or it returns a tuple with
trace `releaseIfValid old-pin ++ [acquire b]` and pin `some b`. -/
theorem gettupleLoop_buf_trace : ∀ (n : Nat) (st : ScanState), st.w.length ≤ n →
    ((gettupleLoop st).1 = GetTupleResult.done ∧ (gettupleLoop st).2.2 = [] ∧
      (gettupleLoop st).2.1.buf = st.buf) ∨
    (∃ t b, (gettupleLoop st).1 = GetTupleResult.found t ∧
      (gettupleLoop st).2.2 = releaseIfValid st.buf ++ [BufEvent.acquire b] ∧
      (gettupleLoop st).2.1.buf = some b) := by
  intro n
  induction n with
  | zero =>
    intro st hlen
    left
    have hw : st.w = [] := List.length_eq_zero.mp (Nat.le_zero.mp hlen)
    rw [gettupleLoop_done st (by simp [hw])]
    exact ⟨rfl, rfl, rfl⟩
  | succ k ih =>
    intro st hlen
    cases hw : st.w.getLast? with
    | none =>
      left
      rw [gettupleLoop_done st hw]
      exact ⟨rfl, rfl, rfl⟩
    | some hc =>
      cases ht : (st.elements hc.element).heaptids.getLast? with
      | none =>
        rw [gettupleLoop_skip st hc hw ht]
        have hne : st.w ≠ [] := by
          intro hnil
          rw [hnil] at hw
          simp at hw
        have hpos : 0 < st.w.length := List.length_pos.mpr hne
        have hlen2 : ({ st with w := st.w.dropLast } : ScanState).w.length ≤ k := by
          simp only [List.length_dropLast]
          omega
        exact ih _ hlen2
      | some t =>
        right
        rw [gettupleLoop_pop st hc t hw ht]
        exact ⟨t, (st.elements hc.element).blkno, rfl, rfl, rfl⟩

/-- One `hnswgettuple` call: either no buffer calls and an unchanged
pin, or a found tuple whose trace is release-old-then-acquire-new. -/
theorem hnswgettuple_trace_shape (env : ScanEnv) (scan : ScanDesc) (so : ScanState) :
    ((hnswgettuple env scan so).2.2 = [] ∧
     (hnswgettuple env scan so).2.1.buf = so.buf ∧
     ∀ t, (hnswgettuple env scan so).1 ≠ GetTupleResult.found t) ∨
    (∃ t b, (hnswgettuple env scan so).1 = GetTupleResult.found t ∧
      (hnswgettuple env scan so).2.2 = releaseIfValid so.buf ++ [BufEvent.acquire b] ∧
      (hnswgettuple env scan so).2.1.buf = some b) := by
  by_cases hf : so.first
  · cases hob : scan.orderByData with
    | none => left; simp [hnswgettuple, hf, hob]
    | some ob =>
      by_cases hnull : ob.sk_isnull
      · left; simp [hnswgettuple, hf, hob, hnull]
      · cases hval : normalizeValue env ob.sk_argument with
        | none => left; simp [hnswgettuple, hf, hob, hnull, hval]
        | some v =>
          have heq : hnswgettuple env scan so =
              gettupleLoop { GetScanItems env so v with first := false } := by
            simp [hnswgettuple, hf, hob, hnull, hval]
          have hbuf : ({ GetScanItems env so v with first := false } : ScanState).buf = so.buf :=
            (GetScanItems_fields env so v).1
          rw [heq]
          rcases gettupleLoop_buf_trace _ _ le_rfl with ⟨h1, h2, h3⟩ | ⟨t, b, h1, h2, h3⟩
          · left
            refine ⟨h2, by rw [h3, hbuf], ?_⟩
            intro t hcontra
            rw [h1] at hcontra
            simp at hcontra
          · right
            exact ⟨t, b, h1, by rw [h2, hbuf], h3⟩
  · have heq : hnswgettuple env scan so = gettupleLoop so := by
      simp [hnswgettuple, hf]
    rw [heq]
    rcases gettupleLoop_buf_trace _ so le_rfl with ⟨h1, h2, h3⟩ | ⟨t, b, h1, h2, h3⟩
    · left
      refine ⟨h2, h3, ?_⟩
      intro t hcontra
      rw [h1] at hcontra
      simp at hcontra
    · right
      exact ⟨t, b, h1, h2, h3⟩

/-- Every prefix of a release-then-acquire trace keeps at most one pin. -/
theorem pin_prefix_bound (buf : Option BlockNumber) (b : BlockNumber) :
    ∀ p s, p ++ s = releaseIfValid buf ++ [BufEvent.acquire b] →
      (pinFold buf.toList p).length ≤ 1 := by
  intro p s hps
  cases buf with
  | none =>
    simp only [releaseIfValid, List.nil_append] at hps
    cases p with
    | nil => simp [pinFold]
    | cons x p' =>
      rw [List.cons_append] at hps
      injection hps with hx hrest
      have hp' : p' = [] := (List.append_eq_nil.mp hrest).1
      subst hx
      subst hp'
      simp [pinFold]
  | some old =>
    simp only [releaseIfValid, List.cons_append, List.nil_append] at hps
    cases p with
    | nil => simp [pinFold]
    | cons x p' =>
      rw [List.cons_append] at hps
      injection hps with hx hrest
      subst hx
      cases p' with
      | nil => simp [pinFold]
      | cons y p'' =>
        rw [List.cons_append] at hrest
        injection hrest with hy hrest2
        have hp'' : p'' = [] := (List.append_eq_nil.mp hrest2).1
        subst hy
        subst hp''
        simp [pinFold]

/-- C3: at most one page pin is held at every point of a `next()` call
(every prefix of the call's buffer trace, folded onto the pin held at
entry, leaves at most one pin), the trace accounting ends exactly at the
cursor's recorded pin, every delivered record releases the previous pin
before acquiring the new one, and `hnswendscan` releases any held pin. -/
theorem gettuple_pin_discipline (env : ScanEnv) (scan : ScanDesc) (so : ScanState) :
    (∀ p s, p ++ s = (hnswgettuple env scan so).2.2 →
      (pinFold so.buf.toList p).length ≤ 1) ∧
    pinFold so.buf.toList (hnswgettuple env scan so).2.2 =
      (hnswgettuple env scan so).2.1.buf.toList ∧
    (∀ t, (hnswgettuple env scan so).1 = GetTupleResult.found t →
      ∃ b, (hnswgettuple env scan so).2.2 = releaseIfValid so.buf ++ [BufEvent.acquire b] ∧
        (hnswgettuple env scan so).2.1.buf = some b) ∧
    (∀ soE trE, hnswendscan (some soE) = some (none, trE) →
      pinFold soE.buf.toList trE = []) := by
  have hshape := hnswgettuple_trace_shape env scan so
  have hP0 : so.buf.toList.length ≤ 1 := by cases so.buf <;> simp
  refine ⟨?_, ?_, ?_, ?_⟩
  · intro p s hps
    rcases hshape with ⟨h2, _, _⟩ | ⟨t, b, _, h2, _⟩
    · rw [h2] at hps
      have hp : p = [] := (List.append_eq_nil.mp hps).1
      subst hp
      simpa [pinFold] using hP0
    · rw [h2] at hps
      exact pin_prefix_bound so.buf b p s hps
  · rcases hshape with ⟨h2, h3, _⟩ | ⟨t, b, _, h2, h3⟩
    · rw [h2, h3]
      rfl
    · rw [h2, h3]
      cases so.buf <;> simp [releaseIfValid, pinFold]
  · intro t ht
    rcases hshape with ⟨_, _, hnf⟩ | ⟨t2, b, h1, h2, h3⟩
    · exact absurd ht (hnf t)
    · exact ⟨b, h2, h3⟩
  · intro soE trE hE
    simp only [hnswendscan, Option.some.injEq, Prod.mk.injEq, true_and] at hE
    rw [← hE]
    cases soE.buf <;> simp [releaseIfValid, pinFold]

/-- Witness for C3: on the concrete pinned cursor the call returns heap
tid 7 with trace release-block-5-then-acquire-block-3; the pin
accounting checks out and endscan on the pinned cursor drains the pin. -/
theorem gettuple_pin_discipline_witness :
    (pinFold soPinned.buf.toList [BufEvent.release 5]).length ≤ 1 ∧
    pinFold soPinned.buf.toList (hnswgettuple envW scanW soPinned).2.2 =
      (hnswgettuple envW scanW soPinned).2.1.buf.toList ∧
    (∃ b, (hnswgettuple envW scanW soPinned).2.2 =
        releaseIfValid soPinned.buf ++ [BufEvent.acquire b] ∧
      (hnswgettuple envW scanW soPinned).2.1.buf = some b) ∧
    pinFold soPinned.buf.toList [BufEvent.release 5] = [] :=
  ⟨(gettuple_pin_discipline envW scanW soPinned).1 [BufEvent.release 5] [BufEvent.acquire 3]
      (by simp [hnswgettuple, gettupleLoop, soPinned, elemsW, releaseIfValid]),
   (gettuple_pin_discipline envW scanW soPinned).2.1,
   (gettuple_pin_discipline envW scanW soPinned).2.2.1 7
      (by simp [hnswgettuple, gettupleLoop, soPinned, elemsW]),
   (gettuple_pin_discipline envW scanW soPinned).2.2.2 soPinned [BufEvent.release 5]
      (by simp [hnswendscan, soPinned, releaseIfValid])⟩

/-- Unfolding `dropLastN` one step from the outside. -/
theorem dropLastN_succ (n : Nat) (l : List Tid) :
    dropLastN (n + 1) l = (dropLastN n l).dropLast :=
  Function.iterate_succ_apply' _ _ _

/-- `n` pops from the back shorten the list by `n`. -/
theorem dropLastN_length (n : Nat) (l : List Tid) :
    (dropLastN n l).length = l.length - n := by
  induction n with
  | zero => rfl
  | succ k ih =>
    rw [dropLastN_succ, List.length_dropLast, ih]
    omega

/-- A nonempty list has a last element. -/
theorem getLast?_of_ne_nil {α : Type} (l : List α) (h : l ≠ []) :
    ∃ t, l.getLast? = some t := by
  cases l with
  | nil => exact absurd rfl h
  | cons a as => exact ⟨(a :: as).getLast (by simp), List.getLast?_eq_getLast _ _⟩

/-- Iterating the `next()` step on a started scan whose last candidate
has at least `n` heap tids: the result list is untouched and the last
candidate's element has lost exactly the last `n` heap tids. -/
theorem stepState_pops (st : ScanState) (hc : HnswCandidate)
    (hw : st.w.getLast? = some hc) :
    ∀ n, n ≤ (st.elements hc.element).heaptids.length →
      (stepState^[n] st).w = st.w ∧
      (stepState^[n] st).elements hc.element =
        { st.elements hc.element with
          heaptids := dropLastN n (st.elements hc.element).heaptids } := by
  intro n
  induction n with
  | zero =>
    intro _
    exact ⟨rfl, rfl⟩
  | succ k ih =>
    intro hk
    obtain ⟨ihw, ihel⟩ := ih (Nat.le_of_succ_le hk)
    have hlen : (dropLastN k (st.elements hc.element).heaptids).length =
        (st.elements hc.element).heaptids.length - k :=
      dropLastN_length k _
    have hne : dropLastN k (st.elements hc.element).heaptids ≠ [] := by
      intro hnil
      rw [hnil] at hlen
      simp at hlen
      omega
    obtain ⟨t, htl⟩ := getLast?_of_ne_nil _ hne
    have hwk : (stepState^[k] st).w.getLast? = some hc := by
      rw [ihw]
      exact hw
    have htk : ((stepState^[k] st).elements hc.element).heaptids.getLast? = some t := by
      rw [ihel]
      exact htl
    rw [Function.iterate_succ_apply', stepState, gettupleLoop_pop _ hc t hwk htk]
    constructor
    · exact ihw
    · simp only [Function.update_same]
      rw [ihel, dropLastN_succ]

/-- C2: on a started scan `next()` is the result-list loop: it examines
the last element of the result list; an element with no remaining heap
tids is dropped and the next-to-last examined (the call equals the call
on the shortened list); otherwise exactly one heap tid is popped from
the back of that element and returned, with the result list unchanged;
a last element with k heap tids produces a `found` return on each of the
first k calls (popping one tid per call) and only the (k+1)-st call
drops it from the result list. -/
theorem gettuple_consumes_result_list (env : ScanEnv) (scan : ScanDesc) (so : ScanState)
    (hfirst : so.first = false) :
    hnswgettuple env scan so = gettupleLoop so ∧
    (∀ hc, so.w.getLast? = some hc → (so.elements hc.element).heaptids = [] →
      gettupleLoop so = gettupleLoop { so with w := so.w.dropLast }) ∧
    (∀ hc t, so.w.getLast? = some hc →
      (so.elements hc.element).heaptids.getLast? = some t →
      (gettupleLoop so).1 = GetTupleResult.found t ∧
      (gettupleLoop so).2.1.w = so.w ∧
      ((gettupleLoop so).2.1.elements hc.element).heaptids =
        (so.elements hc.element).heaptids.dropLast) ∧
    (∀ hc, so.w.getLast? = some hc →
      ∀ n, n < (so.elements hc.element).heaptids.length →
        ∃ t, (dropLastN n (so.elements hc.element).heaptids).getLast? = some t ∧
          (gettupleLoop (stepState^[n] so)).1 = GetTupleResult.found t) ∧
    (∀ hc, so.w.getLast? = some hc →
      ∀ k, (so.elements hc.element).heaptids.length = k →
        (stepState^[k] so).w = so.w ∧
        gettupleLoop (stepState^[k] so) =
          gettupleLoop { stepState^[k] so with w := so.w.dropLast }) := by
  refine ⟨by simp [hnswgettuple, hfirst], ?_, ?_, ?_, ?_⟩
  · intro hc hw ht
    exact gettupleLoop_skip so hc hw (by rw [ht]; rfl)
  · intro hc t hw ht
    rw [gettupleLoop_pop so hc t hw ht]
    exact ⟨rfl, rfl, by simp only [Function.update_same]⟩
  · intro hc hw n hn
    obtain ⟨ihw, ihel⟩ := stepState_pops so hc hw n (Nat.le_of_lt hn)
    have hlen : (dropLastN n (so.elements hc.element).heaptids).length =
        (so.elements hc.element).heaptids.length - n := dropLastN_length n _
    have hne : dropLastN n (so.elements hc.element).heaptids ≠ [] := by
      intro hnil
      rw [hnil] at hlen
      simp at hlen
      omega
    obtain ⟨t, htl⟩ := getLast?_of_ne_nil _ hne
    refine ⟨t, htl, ?_⟩
    have hwn : (stepState^[n] so).w.getLast? = some hc := by
      rw [ihw]
      exact hw
    have htn : ((stepState^[n] so).elements hc.element).heaptids.getLast? = some t := by
      rw [ihel]
      exact htl
    rw [gettupleLoop_pop _ hc t hwn htn]
  · intro hc hw k hk
    obtain ⟨ihw, ihel⟩ := stepState_pops so hc hw k (by omega)
    refine ⟨ihw, ?_⟩
    have hnil : dropLastN k (so.elements hc.element).heaptids = [] := by
      have h1 := dropLastN_length k (so.elements hc.element).heaptids
      rw [hk, Nat.sub_self] at h1
      exact List.length_eq_zero.mp h1
    have hwk : (stepState^[k] so).w.getLast? = some hc := by
      rw [ihw]
      exact hw
    have htk : ((stepState^[k] so).elements hc.element).heaptids.getLast? = none := by
      rw [ihel, hnil]
      rfl
    have := gettupleLoop_skip _ hc hwk htk
    rw [this, ihw]

/-- Witness for C2 on concrete started scans: `next()` is the loop; the
exhausted candidate 1 is dropped and the loop retried; popping candidate
0 returns its last tid 7 with the result list unchanged; candidate 0
(two heap tids) yields a found result on call 0 and call 1, and after
2 calls the result list is still intact (the drop happens only on the
third call). -/
theorem gettuple_consumes_result_list_witness :
    hnswgettuple envW scanW soStarted = gettupleLoop soStarted ∧
    gettupleLoop soSkip = gettupleLoop { soSkip with w := soSkip.w.dropLast } ∧
    (gettupleLoop soStarted).1 = GetTupleResult.found 7 ∧
    (∃ t, (dropLastN 1 (soStarted.elements 0).heaptids).getLast? = some t ∧
      (gettupleLoop (stepState^[1] soStarted)).1 = GetTupleResult.found t) ∧
    (stepState^[2] soStarted).w = soStarted.w :=
  ⟨(gettuple_consumes_result_list envW scanW soStarted rfl).1,
   (gettuple_consumes_result_list envW scanW soSkip rfl).2.1 ⟨1⟩ rfl rfl,
   ((gettuple_consumes_result_list envW scanW soStarted rfl).2.2.1 ⟨0⟩ 7 rfl rfl).1,
   (gettuple_consumes_result_list envW scanW soStarted rfl).2.2.2.1 ⟨0⟩ rfl 1
     (by simp [soStarted, elemsW]),
   ((gettuple_consumes_result_list envW scanW soStarted rfl).2.2.2.2 ⟨0⟩ rfl 2
     (by simp [soStarted, elemsW])).1⟩

/-- Witness for C1: on the concrete one-node graph, `GetScanItems`
stores the spec driver's layer-0 answer set as the final result list. -/
theorem getScanItems_follows_spec_witness :
    GetScanItems envW soFresh 9 = { soFresh with w := runQuerySpec envW soFresh.elements 9 } ∧
    runQuerySpec envW soFresh.elements 9 =
      envW.searchLayer 9
        (narrowFrontier envW 9 [EntryCandidate 0] ((soFresh.elements 0).level))
        envW.hnsw_ef_search 0 :=
  ⟨(getScanItems_follows_spec envW soFresh 9 0 rfl).1,
   (getScanItems_follows_spec envW soFresh 9 0 rfl).2.1⟩
